import Mathlib

/-!
# Verification of the feedback-system storage layer and validators

Shallow embedding of `feedback_app/models.py` (class `FeedbackModel`) and
`feedback_app/validators.py`, together with proofs of the specified
properties of `create`, `read_all`, `get_by_id`, `update`, `delete` and
`validate_feedback_data`.

Modelling conventions:
- The SQLite table `feedback(id, user, comment, timestamp)` is a list of
  rows kept in rowid order, plus the AUTOINCREMENT counter.  A `dbOk`
  flag models whether the database file can be opened: when it is
  `false`, `sqlite3.connect` raises `sqlite3.Error`, which every method
  catches.
- Wall-clock time (`datetime.now()`) is passed in explicitly as a
  `DateTime` value; `_get_current_timestamp` formats it with
  `TIMESTAMP_FORMAT = "%Y-%m-%d %H:%M:%S"` (`config.py`).
- Python dicts passed to `create`/`update` are modelled field by field:
  `none` means the key is absent (subscripting raises `KeyError`, which
  is *not* a `sqlite3.Error` and escapes the `except` clause), and
  `some none` means the key is present with value `None` (the `NOT
  NULL` column constraints make the statement fail with
  `sqlite3.IntegrityError`, which *is* caught).
- `ORDER BY timestamp DESC` compares TEXT values by `memcmp` over their
  UTF-8 bytes, which coincides with lexicographic order on code points;
  `charsLe`/`strLe` below implement that order.
-/

namespace FeedbackApp

/-- Lexicographic comparison of character lists by code point.  This is
SQLite's default (`BINARY`) collation on TEXT values: `memcmp` over the
UTF-8 encodings, which orders strings exactly like their code-point
sequences. -/
def charsLe : List Char → List Char → Bool
  | [], _ => true
  | _ :: _, [] => false
  | a :: as, b :: bs =>
    if a.toNat < b.toNat then true
    else if b.toNat < a.toNat then false
    else charsLe as bs

/-- `strLe a b` is SQLite's `a <= b` on TEXT values. -/
def strLe (a b : String) : Bool :=
  charsLe a.data b.data

/-- `strLt a b` is SQLite's `a < b` on TEXT values (the order is total,
so `a < b` is the complement of `b <= a`). -/
def strLt (a b : String) : Bool :=
  !(strLe b a)

theorem charsLe_refl : ∀ as : List Char, charsLe as as = true
  | [] => rfl
  | _ :: as => by simp [charsLe, charsLe_refl as]

theorem charsLe_total : ∀ as bs : List Char,
    charsLe as bs = true ∨ charsLe bs as = true
  | [], _ => Or.inl rfl
  | _ :: _, [] => Or.inr rfl
  | a :: as, b :: bs => by
    rcases Nat.lt_trichotomy a.toNat b.toNat with h | h | h
    · exact Or.inl (by simp [charsLe, h])
    · rcases charsLe_total as bs with ih | ih
      · exact Or.inl (by simp [charsLe, h, ih])
      · exact Or.inr (by simp [charsLe, h.symm, ih])
    · exact Or.inr (by simp [charsLe, h])

theorem charsLe_trans : ∀ as bs cs : List Char,
    charsLe as bs = true → charsLe bs cs = true → charsLe as cs = true
  | [], _, _, _, _ => rfl
  | _ :: _, [], _, hab, _ => by simp [charsLe] at hab
  | _ :: _, _ :: _, [], _, hbc => by simp [charsLe] at hbc
  | a :: as, b :: bs, c :: cs, hab, hbc => by
    simp only [charsLe] at hab hbc ⊢
    rcases Nat.lt_trichotomy a.toNat b.toNat with h₁ | h₁ | h₁
    · rcases Nat.lt_trichotomy b.toNat c.toNat with h₂ | h₂ | h₂
      · simp [Nat.lt_trans h₁ h₂]
      · simp [h₂ ▸ h₁]
      · simp [charsLe, h₂, Nat.lt_asymm h₂] at hbc
    · rcases Nat.lt_trichotomy b.toNat c.toNat with h₂ | h₂ | h₂
      · simp [h₁ ▸ h₂]
      · have hac : a.toNat = c.toNat := h₁.trans h₂
        simp only [charsLe, h₁, Nat.lt_irrefl, if_false] at hab
        simp only [charsLe, h₂, Nat.lt_irrefl, if_false] at hbc
        simp [hac, Nat.lt_irrefl, charsLe_trans as bs cs hab hbc]
      · simp [charsLe, h₂, Nat.lt_asymm h₂] at hbc
    · simp [charsLe, h₁, Nat.lt_asymm h₁] at hab

/-! ## Python string helpers (`validators.py`) -/

/-- Python's `str.isspace` character class, used by `str.strip()`:
ASCII whitespace `\t \n \v \f \r`, the separator controls `\x1c`-`\x1f`,
space, `\x85`, no-break space, and the Unicode space separators. -/
def pyIsSpace (c : Char) : Bool :=
  let n := c.toNat
  (9 ≤ n && n ≤ 13) || (28 ≤ n && n ≤ 32) || n == 133 || n == 160 ||
    n == 5760 || (8192 ≤ n && n ≤ 8202) || n == 8232 || n == 8233 ||
    n == 8239 || n == 8287 || n == 12288

/-- Python `str.strip()`: drop leading and trailing whitespace. -/
def pyStrip (s : String) : String :=
  ⟨((s.data.dropWhile pyIsSpace).reverse.dropWhile pyIsSpace).reverse⟩

/-- `validators.validate_feedback_data(user, comment)`: collects an error
message for each blank field and returns `(errors == [], errors)`.
A field is blank when it is falsy (`not user`) or strips to the empty
string (`not user.strip()`). -/
def validate_feedback_data (user comment : String) : Bool × List String :=
  let errors : List String :=
    (if user.data.isEmpty || (pyStrip user).data.isEmpty
      then ["User field is required"] else []) ++
    (if comment.data.isEmpty || (pyStrip comment).data.isEmpty
      then ["Comment field is required"] else [])
  (errors.length == 0, errors)

/-- `validators.sanitize_input(text)`: `text.strip() if text else ""`. -/
def sanitize_input (text : String) : String :=
  if text.data.isEmpty then "" else pyStrip text

/-! ## Timestamps (`_get_current_timestamp`, `config.TIMESTAMP_FORMAT`) -/

/-- A wall-clock instant as produced by `datetime.now()`. -/
structure DateTime where
  year : Nat
  month : Nat
  day : Nat
  hour : Nat
  minute : Nat
  second : Nat
deriving DecidableEq

/-- The ASCII digit character for `d` (meaningful for `d < 10`). -/
def digitChar (d : Nat) : Char :=
  Char.ofNat (48 + d)

/-- `strftime`'s `%m`/`%d`/`%H`/`%M`/`%S`: decimal, zero-padded to
width 2 (values below 100 print as exactly two digits). -/
def pad2 (n : Nat) : String :=
  if n < 100 then ⟨[digitChar (n / 10), digitChar (n % 10)]⟩
  else toString n

/-- `strftime`'s `%Y`: decimal, zero-padded to width 4. -/
def pad4 (n : Nat) : String :=
  if n < 10000 then
    ⟨[digitChar (n / 1000), digitChar (n / 100 % 10),
      digitChar (n / 10 % 10), digitChar (n % 10)]⟩
  else toString n

/-- `FeedbackModel._get_current_timestamp`, i.e.
`datetime.now().strftime("%Y-%m-%d %H:%M:%S")`. -/
def formatTimestamp (t : DateTime) : String :=
  pad4 t.year ++ "-" ++ pad2 t.month ++ "-" ++ pad2 t.day ++ " " ++
    pad2 t.hour ++ ":" ++ pad2 t.minute ++ ":" ++ pad2 t.second

/-- A string is a well-formed `YYYY-MM-DD HH:MM:SS` timestamp. -/
def wellFormedTimestamp (s : String) : Bool :=
  match s.data with
  | [y1, y2, y3, y4, g1, m1, m2, g2, a1, a2, sp,
     h1, h2, k1, i1, i2, k2, s1, s2] =>
    y1.isDigit && y2.isDigit && y3.isDigit && y4.isDigit && g1 == '-' &&
      m1.isDigit && m2.isDigit && g2 == '-' && a1.isDigit && a2.isDigit &&
      sp == ' ' && h1.isDigit && h2.isDigit && k1 == ':' &&
      i1.isDigit && i2.isDigit && k2 == ':' && s1.isDigit && s2.isDigit
  | _ => false

/-! ## The data model (`models.py`) -/

/-- One row of the `feedback` table. -/
structure Row where
  id : Nat
  user : String
  comment : String
  timestamp : String
deriving DecidableEq

/-- The persistent state behind a `FeedbackModel`: the rows of the
`feedback` table in rowid order, the AUTOINCREMENT counter, and whether
the database file can be opened at all (`dbOk = false` makes
`sqlite3.connect` raise `sqlite3.Error` in every operation). -/
structure Store where
  rows : List Row
  nextId : Nat
  dbOk : Bool
deriving DecidableEq

/-- The `data` dict passed to `create`/`update`.  For each key, `none`
means the key is absent and `some v` that it is present with value `v`;
`v = none` is Python's `None`, `v = some s` the string `s`. -/
structure FeedbackData where
  user : Option (Option String)
  comment : Option (Option String)
deriving DecidableEq

/-- A Python exception escaping a `FeedbackModel` method.  Only
`KeyError` can: `sqlite3.Error` is always caught. -/
inductive PyExn where
  | keyError (key : String)
deriving DecidableEq

/-- `FeedbackModel.create(data)`.  Computes the timestamp, opens the
connection (any `sqlite3.Error` is caught and yields `False`), then
evaluates `(data['user'], data['comment'], timestamp)` — a missing key
raises `KeyError`, which is not caught — and runs the `INSERT`.  A
`None` value violates a `NOT NULL` constraint (`sqlite3.IntegrityError`,
caught, `False`); otherwise the row is inserted with a fresh id and the
method returns `True`. -/
def create (store : Store) (now : DateTime) (data : FeedbackData) :
    Except PyExn (Bool × Store) :=
  if store.dbOk = false then .ok (false, store)
  else match data.user with
    | none => .error (.keyError "user")
    | some u => match data.comment with
      | none => .error (.keyError "comment")
      | some c => match u, c with
        | some us, some cs =>
          .ok (true,
            { store with
              rows := store.rows ++
                [⟨store.nextId, us, cs, formatTimestamp now⟩],
              nextId := store.nextId + 1 })
        | _, _ => .ok (false, store)

/-- `ORDER BY timestamp DESC` as a relation on rows: `a` may precede `b`
when `b`'s timestamp is at most `a`'s. -/
def rowLe (a b : Row) : Prop :=
  strLe b.timestamp a.timestamp = true

instance : DecidableRel rowLe := fun _ _ =>
  inferInstanceAs (Decidable (_ = true))

instance : IsTotal Row rowLe :=
  ⟨fun a b => (charsLe_total b.timestamp.data a.timestamp.data).imp id id⟩

instance : IsTrans Row rowLe :=
  ⟨fun _ b _ hab hbc => charsLe_trans _ b.timestamp.data _ hbc hab⟩

/-- `FeedbackModel.read_all()`: `SELECT ... ORDER BY timestamp DESC`,
every row, most recent timestamp first (equal timestamps in unspecified
relative order; the embedding picks the stable one).  Any
`sqlite3.Error` is caught and yields `[]`. -/
def read_all (store : Store) : List Row :=
  if store.dbOk then List.insertionSort rowLe store.rows else []

/-- `FeedbackModel.get_by_id(feedback_id)`: `SELECT ... WHERE id = ?`
with `fetchone`; `None` when no row matches or on `sqlite3.Error`. -/
def get_by_id (store : Store) (feedback_id : Nat) : Option Row :=
  if store.dbOk then store.rows.find? (fun r => r.id == feedback_id)
  else none

/-- `FeedbackModel.update(feedback_id, data)`.  Same `KeyError` /
`sqlite3.Error` behaviour as `create`; the `UPDATE` overwrites `user`,
`comment` and `timestamp` of every matching row and reports `True` iff
`cursor.rowcount > 0`.  A `None` value only trips the `NOT NULL`
constraint when some row matches, but either way the result is
`(False, store)` — `IntegrityError` rolls the statement back. -/
def update (store : Store) (now : DateTime) (feedback_id : Nat)
    (data : FeedbackData) : Except PyExn (Bool × Store) :=
  if store.dbOk = false then .ok (false, store)
  else match data.user with
    | none => .error (.keyError "user")
    | some u => match data.comment with
      | none => .error (.keyError "comment")
      | some c => match u, c with
        | some us, some cs =>
          if store.rows.countP (fun r => r.id == feedback_id) > 0 then
            .ok (true,
              { store with
                rows := store.rows.map fun r =>
                  if r.id == feedback_id then
                    { r with user := us, comment := cs,
                             timestamp := formatTimestamp now }
                  else r })
          else .ok (false, store)
        | _, _ => .ok (false, store)

/-- `FeedbackModel.delete(feedback_id)`: `DELETE FROM feedback WHERE
id = ?`, `True` iff `cursor.rowcount > 0`; `sqlite3.Error` is caught
and yields `False`.  No dict subscripting happens, so no exception can
escape. -/
def delete (store : Store) (feedback_id : Nat) : Bool × Store :=
  if store.dbOk = false then (false, store)
  else
    let remaining := store.rows.filter (fun r => r.id != feedback_id)
    if remaining.length < store.rows.length then
      (true, { store with rows := remaining })
    else (false, store)

/-! ## Helper lemmas and operation equations -/

/-- The store a successful `create` leaves behind. -/
def insertResult (store : Store) (now : DateTime) (us cs : String) : Store :=
  { store with
    rows := store.rows ++ [⟨store.nextId, us, cs, formatTimestamp now⟩],
    nextId := store.nextId + 1 }

/-- The store a successful `update` leaves behind. -/
def updateResult (store : Store) (now : DateTime) (fid : Nat)
    (us cs : String) : Store :=
  { store with
    rows := store.rows.map fun r =>
      if r.id == fid then
        { r with user := us, comment := cs, timestamp := formatTimestamp now }
      else r }

theorem create_eq_of_broken (store : Store) (now : DateTime)
    (data : FeedbackData) (hdb : store.dbOk = false) :
    create store now data = .ok (false, store) := by
  simp [create, hdb]

theorem create_eq_ok (store : Store) (now : DateTime) (us cs : String)
    (hdb : store.dbOk = true) :
    create store now ⟨some (some us), some (some cs)⟩ =
      .ok (true, insertResult store now us cs) := by
  simp [create, hdb, insertResult]

theorem update_eq_of_broken (store : Store) (now : DateTime) (fid : Nat)
    (data : FeedbackData) (hdb : store.dbOk = false) :
    update store now fid data = .ok (false, store) := by
  simp [update, hdb]

theorem update_eq_null_user (store : Store) (now : DateTime) (fid : Nat)
    (c : Option String) (hdb : store.dbOk = true) :
    update store now fid ⟨some none, some c⟩ = .ok (false, store) := by
  cases c <;> simp [update, hdb]

theorem update_eq_null_comment (store : Store) (now : DateTime) (fid : Nat)
    (u : Option String) (hdb : store.dbOk = true) :
    update store now fid ⟨some u, some none⟩ = .ok (false, store) := by
  cases u <;> simp [update, hdb]

theorem update_eq_nomatch (store : Store) (now : DateTime) (fid : Nat)
    (us cs : String) (hdb : store.dbOk = true)
    (h0 : store.rows.countP (fun r => r.id == fid) = 0) :
    update store now fid ⟨some (some us), some (some cs)⟩ =
      .ok (false, store) := by
  simp [update, hdb, h0]

theorem update_eq_match (store : Store) (now : DateTime) (fid : Nat)
    (us cs : String) (hdb : store.dbOk = true)
    (hpos : 0 < store.rows.countP (fun r => r.id == fid)) :
    update store now fid ⟨some (some us), some (some cs)⟩ =
      .ok (true, updateResult store now fid us cs) := by
  simp [update, hdb, hpos, updateResult]

theorem pyStrip_of_data_nil (s : String) (h : s.data = []) : pyStrip s = "" := by
  simp [pyStrip, h]

theorem delete_rowcount (rows : List Row) (fid : Nat) :
    (rows.filter (fun r => r.id != fid)).length < rows.length ↔
      0 < rows.countP (fun r => r.id == fid) := by
  induction rows with
  | nil => simp
  | cons r rs ih =>
    have hle := List.length_filter_le (fun r => r.id != fid) rs
    cases h : (r.id == fid) with
    | false =>
      rw [List.countP_cons_of_neg _ _ (by simpa using h),
        List.filter_cons_of_pos (by simpa using h), List.length_cons,
        List.length_cons, Nat.add_lt_add_iff_right]
      exact ih
    | true =>
      rw [List.countP_cons_of_pos _ _ (by simpa using h),
        List.filter_cons_of_neg (by simpa using h), List.length_cons]
      exact iff_of_true (Nat.lt_succ_of_le hle) (Nat.succ_pos _)

theorem countP_id_le_one (rows : List Row) (fid : Nat)
    (h : (rows.map Row.id).Nodup) :
    rows.countP (fun r => r.id == fid) ≤ 1 := by
  induction rows with
  | nil => simp
  | cons r rs ih =>
    simp only [List.map_cons, List.nodup_cons] at h
    cases hh : (r.id == fid) with
    | false =>
      rw [List.countP_cons_of_neg _ _ (by simpa using hh)]
      exact ih h.2
    | true =>
      have hzero : rs.countP (fun x => x.id == fid) = 0 := by
        refine List.countP_eq_zero.mpr fun x hx hfid => ?_
        simp only [beq_iff_eq] at hh hfid
        have hmem : x.id ∈ rs.map Row.id := List.mem_map_of_mem Row.id hx
        rw [hfid, ← hh] at hmem
        exact h.1 hmem
      rw [List.countP_cons_of_pos _ _ (by simpa using hh), hzero]

theorem map_update_filter_ne (rows : List Row) (fid : Nat) (us cs ts : String) :
    ((rows.map fun r =>
        if r.id == fid then
          { r with user := us, comment := cs, timestamp := ts }
        else r).filter fun r => r.id != fid) =
      rows.filter fun r => r.id != fid := by
  induction rows with
  | nil => rfl
  | cons r rs ih =>
    cases h : (r.id == fid) with
    | false =>
      rw [List.map_cons, if_neg (by simpa using h),
        List.filter_cons_of_pos (by simpa using h),
        List.filter_cons_of_pos (by simpa using h), ih]
    | true =>
      rw [List.map_cons, if_pos (by simpa using h),
        List.filter_cons_of_neg (by simpa using h),
        List.filter_cons_of_neg (by simpa using h), ih]

/-! ## Concrete fixtures used by witnesses and counterexamples -/

/-- A concrete wall-clock instant. -/
def dt1 : DateTime := ⟨2024, 1, 2, 3, 4, 5⟩

def rowA : Row := ⟨1, "Alice", "first comment", "2024-01-01 10:00:00"⟩

def rowB : Row := ⟨2, "Bob", "second comment", "2024-01-01 11:00:00"⟩

/-- A healthy store holding two rows. -/
def storeAB : Store := ⟨[rowA, rowB], 3, true⟩

/-- A store whose database file cannot be opened. -/
def storeBroken : Store := ⟨[rowA], 2, false⟩

/-- A healthy store with no rows. -/
def storeEmpty : Store := ⟨[], 1, true⟩

/-- `storeAB` after updating row 1 at time `dt1`. -/
def storeABupd : Store :=
  ⟨[⟨1, "Al", "updated", "2024-01-02 03:04:05"⟩, rowB], 3, true⟩

theorem string_eq_empty_iff (s : String) : s = "" ↔ s.data = [] :=
  ⟨fun h => by rw [h], fun h => String.ext (by rw [h])⟩

/-! ## Claims -/

/-- C7.  `validate_feedback_data` reports `is_valid = false` exactly when
at least one of the two fields is empty after trimming surrounding
whitespace; an empty string and a whitespace-only string are rejected
identically because `"".strip() == ""`.  (The embedding is a pure
function, so inputs are not mutated by construction.) -/
theorem validate_invalid_iff_blank_after_trim (u c : String) :
    (validate_feedback_data u c).1 = false ↔
      (pyStrip u = "" ∨ pyStrip c = "") := by
  have key : ∀ s : String,
      (s.data.isEmpty || (pyStrip s).data.isEmpty) =
        (pyStrip s).data.isEmpty := by
    intro s
    cases hs : s.data with
    | nil => simp [pyStrip, hs]
    | cons a l => simp [hs]
  simp only [validate_feedback_data, key]
  by_cases h1 : (pyStrip u).data = [] <;> by_cases h2 : (pyStrip c).data = [] <;>
    simp [h1, h2, string_eq_empty_iff]

/-- C9.  Deleting an id and then looking it up always yields the absent
value, whether the delete succeeded, found no row, or hit a storage
error. -/
theorem delete_then_get_by_id_none (store : Store) (fid : Nat) :
    get_by_id (delete store fid).2 fid = none := by
  cases hdb : store.dbOk with
  | false => simp [delete, get_by_id, hdb]
  | true =>
    by_cases hlen :
        (store.rows.filter (fun r => r.id != fid)).length < store.rows.length
    · have hfind : (store.rows.filter (fun r => r.id != fid)).find?
          (fun r => r.id == fid) = none := by
        refine List.find?_eq_none.mpr fun x hx => ?_
        simpa using (List.mem_filter.mp hx).2
      simp [delete, get_by_id, hdb, hlen, hfind]
    · have h0 : store.rows.countP (fun r => r.id == fid) = 0 := by
        rcases Nat.eq_zero_or_pos
            (store.rows.countP (fun r => r.id == fid)) with h | h
        · exact h
        · exact absurd ((delete_rowcount store.rows fid).mpr h) hlen
      have hfind : store.rows.find? (fun r => r.id == fid) = none := by
        refine List.find?_eq_none.mpr fun x hx => ?_
        simpa using List.countP_eq_zero.mp h0 x hx
      simp [delete, get_by_id, hdb, hlen, hfind]

/-- C4.  `update` on an id no row carries returns `False` and leaves the
store exactly as it was, whatever the cause (no match or a broken
database). -/
theorem update_nonexistent_id_noop (store : Store) (now : DateTime)
    (fid : Nat) (u c : String) (hnone : ∀ r ∈ store.rows, r.id ≠ fid) :
    update store now fid ⟨some (some u), some (some c)⟩ =
      .ok (false, store) := by
  cases hdb : store.dbOk with
  | false => simp [update, hdb]
  | true =>
    have h0 : store.rows.countP (fun r => r.id == fid) = 0 :=
      List.countP_eq_zero.mpr fun r hr => by simpa using hnone r hr
    simp [update, hdb, h0]

theorem update_nonexistent_id_noop_witness :
    update storeAB dt1 99 ⟨some (some "Zoe"), some (some "new")⟩ =
      .ok (false, storeAB) :=
  update_nonexistent_id_noop storeAB dt1 99 "Zoe" "new" (by decide)

/-- C2, counterexample to the claim as stated: with the `comment` key
missing from the dict, `create` raises `KeyError` to its caller rather
than returning `False` — dict subscripting happens inside the `try`
block but only `sqlite3.Error` is caught. -/
theorem create_missing_key_raises :
    create storeEmpty dt1 ⟨some (some "A"), none⟩ =
      .error (.keyError "comment") := rfl

/-- C2, amended.  When both the `user` and `comment` keys are present,
`create` never raises: any storage failure — a broken database or a
`None` value tripping a `NOT NULL` constraint — makes it return
`False`. -/
theorem create_keys_present_never_raises (store : Store) (now : DateTime)
    (u c : Option String) :
    ∃ r, create store now ⟨some u, some c⟩ = .ok r ∧
      ((store.dbOk = false ∨ u = none ∨ c = none) → r.1 = false) := by
  cases hdb : store.dbOk with
  | false => exact ⟨(false, store), by simp [create, hdb], fun _ => rfl⟩
  | true =>
    cases u with
    | none => exact ⟨(false, store), by simp [create, hdb], fun _ => rfl⟩
    | some us =>
      cases c with
      | none => exact ⟨(false, store), by simp [create, hdb], fun _ => rfl⟩
      | some cs =>
        refine ⟨(true, insertResult store now us cs),
          create_eq_ok store now us cs hdb, fun h => ?_⟩
        rcases h with h | h | h <;> simp [hdb] at h

theorem create_keys_present_never_raises_witness :
    ∃ r, create storeBroken dt1 ⟨some (some "A"), some (some "B")⟩ =
        .ok r ∧
      ((storeBroken.dbOk = false ∨ (some "A" : Option String) = none ∨
        (some "B" : Option String) = none) → r.1 = false) :=
  create_keys_present_never_raises storeBroken dt1 (some "A") (some "B")

/-- C10.  Whatever `update` or `delete` return, every row whose id
differs from the targeted one is left completely unchanged: the
sublist of rows with a different id is the same before and after. -/
theorem update_delete_frame_other_rows (store : Store) (now : DateTime)
    (fid : Nat) (data : FeedbackData) (b : Bool) (s' : Store) :
    (update store now fid data = .ok (b, s') →
      s'.rows.filter (fun r => r.id != fid) =
        store.rows.filter (fun r => r.id != fid)) ∧
    ((delete store fid).2.rows.filter (fun r => r.id != fid) =
      store.rows.filter (fun r => r.id != fid)) := by
  constructor
  · intro h
    cases hdb : store.dbOk with
    | false =>
      rw [update_eq_of_broken store now fid data hdb] at h
      simp only [Except.ok.injEq, Prod.mk.injEq] at h
      rw [← h.2]
    | true =>
      rcases data with ⟨du, dc⟩
      cases du with
      | none => simp [update, hdb] at h
      | some uv =>
        cases dc with
        | none => simp [update, hdb] at h
        | some cv =>
          cases uv with
          | none =>
            rw [update_eq_null_user store now fid cv hdb] at h
            simp only [Except.ok.injEq, Prod.mk.injEq] at h
            rw [← h.2]
          | some us =>
            cases cv with
            | none =>
              rw [update_eq_null_comment store now fid (some us) hdb] at h
              simp only [Except.ok.injEq, Prod.mk.injEq] at h
              rw [← h.2]
            | some cs =>
              rcases Nat.eq_zero_or_pos
                  (store.rows.countP (fun r => r.id == fid)) with h0 | hpos
              · rw [update_eq_nomatch store now fid us cs hdb h0] at h
                simp only [Except.ok.injEq, Prod.mk.injEq] at h
                rw [← h.2]
              · rw [update_eq_match store now fid us cs hdb hpos] at h
                simp only [Except.ok.injEq, Prod.mk.injEq] at h
                rw [← h.2]
                exact map_update_filter_ne store.rows fid us cs
                  (formatTimestamp now)
  · cases hdb : store.dbOk with
    | false => simp [delete, hdb]
    | true =>
      by_cases hlen :
          (store.rows.filter (fun r => r.id != fid)).length <
            store.rows.length
      · simp [delete, hdb, hlen, List.filter_filter]
      · simp [delete, hdb, hlen]

theorem update_delete_frame_other_rows_witness :
    storeABupd.rows.filter (fun r => r.id != 1) =
      storeAB.rows.filter (fun r => r.id != 1) :=
  (update_delete_frame_other_rows storeAB dt1 1
      ⟨some (some "Al"), some (some "updated")⟩ true storeABupd).1 rfl

/-- C3.  Under the table invariant that ids are unique (`id` is the
`INTEGER PRIMARY KEY`), `update` and `delete` return `True` exactly when
the database is reachable and exactly one row carries the requested id;
a missing id or a storage error yields `False`. -/
theorem update_delete_true_iff_one_row (store : Store) (now : DateTime)
    (fid : Nat) (us cs : String)
    (hnodup : (store.rows.map Row.id).Nodup) :
    (∃ s₁, update store now fid ⟨some (some us), some (some cs)⟩ =
      .ok ((store.dbOk &&
        (store.rows.countP (fun r => r.id == fid) == 1)), s₁)) ∧
    (∃ s₂, delete store fid =
      ((store.dbOk &&
        (store.rows.countP (fun r => r.id == fid) == 1)), s₂)) := by
  cases hdb : store.dbOk with
  | false =>
    exact ⟨⟨store, by rw [update_eq_of_broken store now fid _ hdb,
        Bool.false_and]⟩,
      ⟨store, by simp [delete, hdb]⟩⟩
  | true =>
    rcases Nat.eq_zero_or_pos
        (store.rows.countP (fun r => r.id == fid)) with h0 | hpos
    · have hlen : ¬ (store.rows.filter (fun r => r.id != fid)).length <
          store.rows.length := by
        rw [delete_rowcount, h0]
        omega
      exact ⟨⟨store, by rw [update_eq_nomatch store now fid us cs hdb h0]
                        simp [h0]⟩,
        ⟨store, by simp [delete, hdb, hlen, h0]⟩⟩
    · have h1 : store.rows.countP (fun r => r.id == fid) = 1 :=
        le_antisymm (countP_id_le_one store.rows fid hnodup) hpos
      have hlen : (store.rows.filter (fun r => r.id != fid)).length <
          store.rows.length := (delete_rowcount store.rows fid).mpr hpos
      exact ⟨⟨updateResult store now fid us cs,
          by rw [update_eq_match store now fid us cs hdb hpos]
             simp [h1]⟩,
        ⟨{ store with rows := store.rows.filter (fun r => r.id != fid) },
          by simp [delete, hdb, hlen, h1]⟩⟩

theorem update_delete_true_iff_one_row_witness :
    (∃ s₁, update storeAB dt1 1 ⟨some (some "X"), some (some "Y")⟩ =
      .ok ((storeAB.dbOk &&
        (storeAB.rows.countP (fun r => r.id == 1) == 1)), s₁)) ∧
    (∃ s₂, delete storeAB 1 =
      ((storeAB.dbOk &&
        (storeAB.rows.countP (fun r => r.id == 1) == 1)), s₂)) :=
  update_delete_true_iff_one_row storeAB dt1 1 "X" "Y" (by decide)

/-- C5.  `read_all` returns exactly the stored rows, ordered by
timestamp descending (a permutation of the table that is sorted under
`timestamp ≥`), and returns the empty sequence both on a storage error
and on an empty table. -/
theorem read_all_orders_by_timestamp_desc (store : Store) :
    (store.dbOk = false → read_all store = []) ∧
    (store.rows = [] → read_all store = []) ∧
    (store.dbOk = true →
      List.Perm (read_all store) store.rows ∧
      (read_all store).Pairwise
        (fun a b => strLe b.timestamp a.timestamp = true)) := by
  refine ⟨fun h => by simp [read_all, h], fun h => ?_, fun h => ⟨?_, ?_⟩⟩
  · cases hdb : store.dbOk <;> simp [read_all, hdb, h]
  · simp only [read_all, h, if_pos]
    exact List.perm_insertionSort rowLe store.rows
  · simp only [read_all, h, if_pos]
    exact List.sorted_insertionSort rowLe store.rows

theorem read_all_orders_by_timestamp_desc_witness :
    read_all storeBroken = [] ∧ read_all storeEmpty = [] ∧
      (List.Perm (read_all storeAB) storeAB.rows ∧
        (read_all storeAB).Pairwise
          (fun a b => strLe b.timestamp a.timestamp = true)) :=
  ⟨(read_all_orders_by_timestamp_desc storeBroken).1 rfl,
    (read_all_orders_by_timestamp_desc storeEmpty).2.1 rfl,
    (read_all_orders_by_timestamp_desc storeAB).2.2 rfl⟩

/-- C6.  A successful `update` stamps the targeted row with the current
time — at least the timestamp the row carried before, under a monotone
clock — and no row's id changes. -/
theorem update_success_fresh_timestamp_same_id (store : Store)
    (now : DateTime) (fid : Nat) (us cs : String) (r : Row)
    (hr : r ∈ store.rows) (hid : r.id = fid) (hdb : store.dbOk = true)
    (hclock : strLe r.timestamp (formatTimestamp now) = true) :
    ∃ s', update store now fid ⟨some (some us), some (some cs)⟩ =
        .ok (true, s') ∧
      s'.rows.map Row.id = store.rows.map Row.id ∧
      ∀ r' ∈ s'.rows, r'.id = fid →
        r'.timestamp = formatTimestamp now ∧
        strLe r.timestamp r'.timestamp = true := by
  have hpos : 0 < store.rows.countP (fun x => x.id == fid) :=
    List.countP_pos_iff.mpr ⟨r, hr, by simpa using hid⟩
  refine ⟨updateResult store now fid us cs,
    update_eq_match store now fid us cs hdb hpos, ?_, ?_⟩
  · simp only [updateResult]
    rw [List.map_map]
    refine List.map_congr_left fun x _ => ?_
    simp only [Function.comp_apply]
    split <;> rfl
  · intro r' hr' hid'
    simp only [updateResult] at hr'
    obtain ⟨x, hx, hfx⟩ := List.mem_map.mp hr'
    cases hxc : (x.id == fid) with
    | true =>
      rw [if_pos (by simpa using hxc)] at hfx
      rw [← hfx]
      exact ⟨rfl, hclock⟩
    | false =>
      rw [if_neg (by simpa using hxc)] at hfx
      rw [← hfx] at hid'
      simp [hid'] at hxc

theorem update_success_fresh_timestamp_same_id_witness :
    ∃ s', update storeAB dt1 1 ⟨some (some "Al"), some (some "upd")⟩ =
        .ok (true, s') ∧
      s'.rows.map Row.id = storeAB.rows.map Row.id ∧
      ∀ r' ∈ s'.rows, r'.id = 1 →
        r'.timestamp = formatTimestamp dt1 ∧
        strLe rowA.timestamp r'.timestamp = true :=
  update_success_fresh_timestamp_same_id storeAB dt1 1 "Al" "upd" rowA
    (by decide) rfl rfl (by decide)

/-- C1.  Creating an entry with non-blank user and comment on a healthy
store succeeds, and — the fresh timestamp being strictly the most
recent — the new row heads the next `read_all`. -/
theorem create_visible_at_head_of_read_all (store : Store) (now : DateTime)
    (u c : String) (hdb : store.dbOk = true)
    (_hu : pyStrip u ≠ "") (_hc : pyStrip c ≠ "")
    (hfresh : ∀ r ∈ store.rows,
      strLt r.timestamp (formatTimestamp now) = true) :
    ∃ s', create store now ⟨some (some u), some (some c)⟩ =
        .ok (true, s') ∧
      ∃ rest, read_all s' =
        ⟨store.nextId, u, c, formatTimestamp now⟩ :: rest := by
  refine ⟨insertResult store now u c, create_eq_ok store now u c hdb, ?_⟩
  have hra : read_all (insertResult store now u c) =
      List.insertionSort rowLe
        (store.rows ++ [⟨store.nextId, u, c, formatTimestamp now⟩]) := by
    simp [read_all, insertResult, hdb]
  rw [hra]
  have hperm := List.perm_insertionSort rowLe
    (store.rows ++ [⟨store.nextId, u, c, formatTimestamp now⟩])
  have hsorted := List.sorted_insertionSort rowLe
    (store.rows ++ [⟨store.nextId, u, c, formatTimestamp now⟩])
  cases hL : List.insertionSort rowLe
      (store.rows ++ [⟨store.nextId, u, c, formatTimestamp now⟩]) with
  | nil =>
    exfalso
    have hlen := hperm.length_eq
    rw [hL] at hlen
    simp at hlen
  | cons hd tl =>
    refine ⟨tl, ?_⟩
    rw [hL] at hperm hsorted
    have hmemhd : hd ∈ store.rows ++
        [⟨store.nextId, u, c, formatTimestamp now⟩] :=
      hperm.mem_iff.mp (List.mem_cons_self hd tl)
    have hmemNew : (⟨store.nextId, u, c, formatTimestamp now⟩ : Row) ∈
        hd :: tl := hperm.mem_iff.mpr (by simp)
    rcases List.mem_append.mp hmemhd with hh | hh
    · exfalso
      have hlt := hfresh hd hh
      simp only [strLt, Bool.not_eq_true'] at hlt
      rcases List.mem_cons.mp hmemNew with he | ht
      · rw [← he] at hlt
        exact absurd (charsLe_refl (formatTimestamp now).data)
          (by simpa [strLe] using hlt)
      · have hle : strLe (formatTimestamp now) hd.timestamp = true :=
          List.rel_of_sorted_cons hsorted _ ht
        rw [hle] at hlt
        cases hlt
    · simp only [List.mem_singleton] at hh
      rw [hh]

theorem create_visible_at_head_of_read_all_witness :
    ∃ s', create storeAB dt1 ⟨some (some "User3"), some (some "Comment3")⟩ =
        .ok (true, s') ∧
      ∃ rest, read_all s' =
        ⟨storeAB.nextId, "User3", "Comment3", formatTimestamp dt1⟩ :: rest :=
  create_visible_at_head_of_read_all storeAB dt1 "User3" "Comment3" rfl
    (by decide) (by decide) (by decide)

/-! ## Well-formedness of produced timestamps -/

theorem digitChar_isDigit (d : Nat) (h : d < 10) :
    (digitChar d).isDigit = true := by
  interval_cases d <;> decide

theorem formatTimestamp_data (t : DateTime) (hy : t.year < 10000)
    (hmo : t.month < 100) (hd : t.day < 100) (hh : t.hour < 100)
    (hmi : t.minute < 100) (hs : t.second < 100) :
    (formatTimestamp t).data =
      [digitChar (t.year / 1000), digitChar (t.year / 100 % 10),
       digitChar (t.year / 10 % 10), digitChar (t.year % 10), '-',
       digitChar (t.month / 10), digitChar (t.month % 10), '-',
       digitChar (t.day / 10), digitChar (t.day % 10), ' ',
       digitChar (t.hour / 10), digitChar (t.hour % 10), ':',
       digitChar (t.minute / 10), digitChar (t.minute % 10), ':',
       digitChar (t.second / 10), digitChar (t.second % 10)] := by
  simp [formatTimestamp, pad4, pad2, hy, hmo, hd, hh, hmi, hs]

theorem wellFormed_formatTimestamp (t : DateTime) (hy : t.year < 10000)
    (hmo : t.month < 100) (hd : t.day < 100) (hh : t.hour < 100)
    (hmi : t.minute < 100) (hs : t.second < 100) :
    wellFormedTimestamp (formatTimestamp t) = true := by
  have hdata := formatTimestamp_data t hy hmo hd hh hmi hs
  have d1 : t.year / 1000 < 10 := by omega
  have d2 : t.year / 100 % 10 < 10 := by omega
  have d3 : t.year / 10 % 10 < 10 := by omega
  have d4 : t.year % 10 < 10 := by omega
  have d5 : t.month / 10 < 10 := by omega
  have d6 : t.month % 10 < 10 := by omega
  have d7 : t.day / 10 < 10 := by omega
  have d8 : t.day % 10 < 10 := by omega
  have d9 : t.hour / 10 < 10 := by omega
  have d10 : t.hour % 10 < 10 := by omega
  have d11 : t.minute / 10 < 10 := by omega
  have d12 : t.minute % 10 < 10 := by omega
  have d13 : t.second / 10 < 10 := by omega
  have d14 : t.second % 10 < 10 := by omega
  simp [wellFormedTimestamp, hdata, digitChar_isDigit _ d1,
    digitChar_isDigit _ d2, digitChar_isDigit _ d3, digitChar_isDigit _ d4,
    digitChar_isDigit _ d5, digitChar_isDigit _ d6, digitChar_isDigit _ d7,
    digitChar_isDigit _ d8, digitChar_isDigit _ d9, digitChar_isDigit _ d10,
    digitChar_isDigit _ d11, digitChar_isDigit _ d12,
    digitChar_isDigit _ d13, digitChar_isDigit _ d14]

/-- C8.  Round-trip: creating an entry and reading it back through
`get_by_id` yields a row with the same user and comment, a well-formed
`YYYY-MM-DD HH:MM:SS` timestamp, and the freshly assigned id, distinct
from every id present before the create. -/
theorem create_then_get_by_id_roundtrip (store : Store) (now : DateTime)
    (u c : String) (hdb : store.dbOk = true)
    (hfreshId : ∀ r ∈ store.rows, r.id ≠ store.nextId)
    (hy : now.year < 10000) (hmo : now.month < 100) (hd : now.day < 100)
    (hh : now.hour < 100) (hmi : now.minute < 100) (hs : now.second < 100) :
    ∃ s', create store now ⟨some (some u), some (some c)⟩ =
        .ok (true, s') ∧
      get_by_id s' store.nextId =
        some ⟨store.nextId, u, c, formatTimestamp now⟩ ∧
      wellFormedTimestamp (formatTimestamp now) = true ∧
      ∀ r ∈ store.rows, r.id ≠ store.nextId := by
  refine ⟨insertResult store now u c, create_eq_ok store now u c hdb, ?_,
    wellFormed_formatTimestamp now hy hmo hd hh hmi hs, hfreshId⟩
  have hnone : store.rows.find? (fun r => r.id == store.nextId) = none :=
    List.find?_eq_none.mpr fun x hx => by simpa using hfreshId x hx
  simp [get_by_id, insertResult, hdb, List.find?_append, hnone]

theorem create_then_get_by_id_roundtrip_witness :
    ∃ s', create storeAB dt1 ⟨some (some "A"), some (some "B")⟩ =
        .ok (true, s') ∧
      get_by_id s' storeAB.nextId =
        some ⟨storeAB.nextId, "A", "B", formatTimestamp dt1⟩ ∧
      wellFormedTimestamp (formatTimestamp dt1) = true ∧
      ∀ r ∈ storeAB.rows, r.id ≠ storeAB.nextId :=
  create_then_get_by_id_roundtrip storeAB dt1 "A" "B" rfl (by decide)
    (by decide) (by decide) (by decide) (by decide) (by decide) (by decide)

end FeedbackApp
